import Mathlib

/-!
Verification development for the MCP chatbot repository (two source variants:
`chatbot_mcp_tools.py`, a single-server chat loop, and `chatbot_mcp_multi.py`,
a multi-server chat loop with a tool registry).  The model API and the tool
servers are opaque I/O boundaries; they are embedded as oracle functions
(`model : Nat → List Block` giving the response of each model-invocation
round, and `callTool` giving each tool call's result or raised error).
All orchestration logic is translated directly from the Python source.
-/

set_option maxRecDepth 8000

/-- A content block of a model response: a text block or a tool-use request
`{id, name, input}` (the structured input is embedded as an opaque string). -/
inductive Block where
  | text (s : String)
  | toolUse (id name input : String)
deriving DecidableEq

/-- `content.type == 'text'` check from the Python sources. -/
def Block.isText : Block → Bool
  | .text _ => true
  | .toolUse _ _ _ => false

/-! ## Single-server variant: `chatbot_mcp_tools.py` -/

/-- A transcript entry of the single-server variant.  The tool result is sent
as a `role: user` message holding a `tool_result` item carrying the
`tool_use_id`; the assistant message holds the response blocks.  In this
variant every appended message is a freshly built value (no aliasing). -/
inductive Message where
  | user (content : String)
  | assistant (blocks : List Block)
  | toolResult (toolUseId content : String)
deriving DecidableEq

/-- Result of `_process_content_blocks` (and of one `process_query` round):
`shouldContinue` is the returned boolean, `error` is `some e` when a Python
exception with message `e` propagated, `messages` is the transcript after the
call, `printed` the assistant text emitted to the console in order, and
`calls` the `(name, input)` tool invocations dispatched, in dispatch order. -/
structure BlocksResult where
  shouldContinue : Bool
  error : Option String
  messages : List Message
  printed : List String
  calls : List (String × String)
deriving DecidableEq

/-- `_process_content_blocks` of `chatbot_mcp_tools.py` (lines 75-117): walk
the response blocks; a text block is printed and, when it is the response's
only block, processing returns `False`; a tool-use block is dispatched via
`session.call_tool` and on success the assistant message `[content]` plus the
tool-result message are appended and `True` is returned immediately (blocks
after it are never visited); on failure the exception is re-raised with
nothing appended.  `totalLen` is `len(response.content)`. -/
def processContentBlocks (callTool : String → String → Except String String) :
    List Block → Nat → List Message → List String → List (String × String) → BlocksResult
  | [], _, ms, pr, cs => ⟨false, none, ms, pr, cs⟩
  | Block.text s :: rest, totalLen, ms, pr, cs =>
      if totalLen = 1 then ⟨false, none, ms, pr ++ [s], cs⟩
      else processContentBlocks callTool rest totalLen ms (pr ++ [s]) cs
  | Block.toolUse id name input :: _rest, _totalLen, ms, pr, cs =>
      match callTool name input with
      | Except.ok result =>
          ⟨true, none,
            ms ++ [Message.assistant [Block.toolUse id name input],
                   Message.toolResult id result],
            pr, cs ++ [(name, input)]⟩
      | Except.error e => ⟨false, some e, ms, pr, cs ++ [(name, input)]⟩

/-- One round's block processing: `await self._process_content_blocks(response,
messages)` with `totalLen = len(response.content)` and fresh per-call output
accumulators. -/
def processResponse (callTool : String → String → Except String String)
    (content : List Block) (ms : List Message) : BlocksResult :=
  processContentBlocks callTool content content.length ms [] []

/-- `max_iterations = 10` in `process_query` of `chatbot_mcp_tools.py`. -/
def max_iterations : Nat := 10

/-- Outcome of `process_query` in the single-server variant: `rounds` counts
model invocations performed, `warned` whether the maximum-iterations warning
was printed, `error` a propagated exception message, plus the final
transcript, console output and dispatched tool calls. -/
structure QueryResult where
  rounds : Nat
  warned : Bool
  error : Option String
  messages : List Message
  printed : List String
  calls : List (String × String)
deriving DecidableEq

/-- The `while iteration <= max_iterations` loop of `process_query`
(`chatbot_mcp_tools.py` lines 32-49), with `fuel = max_iterations - iteration
+ 1` remaining iterations.  Exhausting the fuel is the `iteration >
max_iterations` exit, which prints the warning; a round whose processing
returns `False` breaks out; a raised exception propagates (and skips the
warning check, as in the Python `except`/`raise`). -/
def processQueryAux (model : Nat → List Block)
    (callTool : String → String → Except String String) :
    Nat → List Message → Nat → List String → List (String × String) → QueryResult
  | 0, ms, rounds, pr, cs => ⟨rounds, true, none, ms, pr, cs⟩
  | fuel + 1, ms, rounds, pr, cs =>
      let r := processResponse callTool (model rounds) ms
      match r.error with
      | some e => ⟨rounds + 1, false, some e, r.messages, pr ++ r.printed, cs ++ r.calls⟩
      | none =>
          if r.shouldContinue then
            processQueryAux model callTool fuel r.messages (rounds + 1)
              (pr ++ r.printed) (cs ++ r.calls)
          else ⟨rounds + 1, false, none, r.messages, pr ++ r.printed, cs ++ r.calls⟩

/-- `process_query(query)` of `chatbot_mcp_tools.py`: transcript starts as
`[{'role': 'user', 'content': query}]`, `iteration = 1`, ceiling
`max_iterations = 10`. -/
def processQuery (model : Nat → List Block)
    (callTool : String → String → Except String String) (query : String) : QueryResult :=
  processQueryAux model callTool max_iterations [Message.user query] 0 [] []

/-! ## Multi-server variant: `chatbot_mcp_multi.py`

In this variant `process_query` keeps a single Python list object
`assistant_content` per model response; on every tool-use block the *same*
list object is appended to `messages` and it keeps being mutated afterwards.
To capture this aliasing faithfully, an assistant transcript entry stores a
reference (heap cell index) to the block-list object, and the cells live in
an explicit heap. -/

/-- A transcript entry of the multi-server variant.  `assistantRef c` is the
message `{'role': 'assistant', 'content': assistant_content}` where
`assistant_content` is the list object stored at heap cell `c`. -/
inductive MsgM where
  | user (content : String)
  | assistantRef (cell : Nat)
  | toolResult (toolUseId content : String)
deriving DecidableEq

/-- Heap of Python list objects plus the `messages` transcript. -/
structure MState where
  heap : List (List Block)
  transcript : List MsgM
deriving DecidableEq

/-- Read the materialized transcript: dereference each assistant message's
content list.  (This is what the transcript looks like when it is serialized
for the model API.) -/
def materialize (st : MState) : List Message :=
  st.transcript.map fun m =>
    match m with
    | MsgM.user c => Message.user c
    | MsgM.assistantRef c => Message.assistant (st.heap.getD c [])
    | MsgM.toolResult i c => Message.toolResult i c

/-- `assistant_content.append(content)`: in-place append to the list object at
heap cell `c`. -/
def heapAppend (heap : List (List Block)) (c : Nat) (b : Block) : List (List Block) :=
  heap.set c ((heap.getD c []) ++ [b])

/-- Exceptions raised inside the multi-variant turn: `keyError name` is the
`KeyError` from `self.tool_to_session[tool_name]` when the name is absent from
the registry (the spec's `UnknownToolError`), and `toolError msg` is an
exception raised by `session.call_tool` (the spec's `ToolExecutionError`). -/
inductive PyError where
  | keyError (name : String)
  | toolError (msg : String)
deriving DecidableEq

/-- `self.tool_to_session[tool.name] = session`: Python dict assignment.  The
dict is embedded as its insertion-ordered entry list; assigning an existing
key overwrites its value in place, a new key is appended. -/
def register (reg : List (String × Nat)) (name : String) (sess : Nat) :
    List (String × Nat) :=
  if reg.any (fun p => p.1 = name) then
    reg.map (fun p => if p.1 = name then (name, sess) else p)
  else reg ++ [(name, sess)]

/-- `self.tool_to_session[tool_name]` lookup (returns `none` where Python
raises `KeyError`). -/
def resolve (reg : List (String × Nat)) (name : String) : Option Nat :=
  (reg.find? (fun p => p.1 = name)).map (fun p => p.2)

/-- `_handle_tool_call` of `chatbot_mcp_multi.py` (lines 109-125): resolve the
session for the tool name (KeyError when absent), dispatch
`session.call_tool(tool_name, arguments)` (exception propagates), and on
success append the tool-result message carrying `tool_content.id`.  Returns
(raised exception, transcript state at return/raise, dispatched calls as
`(session, name, input)`). -/
def handleToolCall (reg : List (String × Nat))
    (callTool : Nat → String → String → Except String String)
    (id name input : String) (st : MState) :
    Option PyError × MState × List (Nat × String × String) :=
  match resolve reg name with
  | none => (some (PyError.keyError name), st, [])
  | some s =>
      match callTool s name input with
      | Except.error e => (some (PyError.toolError e), st, [(s, name, input)])
      | Except.ok result =>
          (none,
           { st with transcript := st.transcript ++ [MsgM.toolResult id result] },
           [(s, name, input)])

/-- The `if len(response.content) == 1 and response.content[0].type == "text"`
guard inside the tool-use branch (lines 96-98): sets `process_query = False`
only when the whole response is a lone text block. -/
def loneTextFlag (content : List Block) (flag : Bool) : Bool :=
  match content with
  | [Block.text _] => false
  | _ => flag

/-- The `print("\nAssistant:", response.content[0].text)` in the same guard. -/
def loneTextPrint (content : List Block) (printed : List String) : List String :=
  match content with
  | [Block.text t] => printed ++ [t]
  | _ => printed

/-- Accumulated state of one pass of the `for content in response.content`
loop in the multi-variant `process_query`: raised exception (a raise aborts
the rest of the loop), transcript state, the `process_query` flag, console
output, and dispatched calls. -/
structure MStep where
  error : Option PyError
  st : MState
  flag : Bool
  printed : List String
  calls : List (Nat × String × String)
deriving DecidableEq

/-- One iteration of `for content in response.content` (lines 86-98).
`content` is the whole response block list (used for the `len(...) == 1`
checks), `c` the heap cell of this response's `assistant_content` list.  A
text block is printed and appended to `assistant_content`; when the response
has a single block the flag is cleared.  A tool-use block is appended to
`assistant_content`, then the (shared, aliased) list is appended to the
transcript as an assistant message, then the call is dispatched. -/
def multiBlockStep (reg : List (String × Nat))
    (callTool : Nat → String → String → Except String String)
    (content : List Block) (c : Nat) (acc : MStep) (b : Block) : MStep :=
  match acc.error with
  | some _ => acc
  | none =>
    match b with
    | Block.text s =>
        { acc with
          st := { acc.st with heap := heapAppend acc.st.heap c (Block.text s) },
          printed := acc.printed ++ [s],
          flag := if content.length = 1 then false else acc.flag }
    | Block.toolUse id name input =>
        let st1 : MState :=
          { acc.st with heap := heapAppend acc.st.heap c (Block.toolUse id name input) }
        let st2 : MState :=
          { st1 with transcript := st1.transcript ++ [MsgM.assistantRef c] }
        match handleToolCall reg callTool id name input st2 with
        | (some e, st3, cs) =>
            { acc with error := some e, st := st3, calls := acc.calls ++ cs }
        | (none, st3, cs) =>
            { error := none, st := st3,
              flag := loneTextFlag content acc.flag,
              printed := loneTextPrint content acc.printed,
              calls := acc.calls ++ cs }

/-- One body of the `while process_query` loop (lines 82-98): allocate the
fresh `assistant_content = []` list object (a new heap cell) and run the
block loop over the response content. -/
def multiProcessResponse (reg : List (String × Nat))
    (callTool : Nat → String → String → Except String String)
    (content : List Block) (st : MState) (flag : Bool) : MStep :=
  content.foldl
    (multiBlockStep reg callTool content st.heap.length)
    ⟨none, { heap := st.heap ++ [[]], transcript := st.transcript }, flag, [], []⟩

/-- Outcome of the multi-variant `process_query` observed for a bounded number
of loop iterations.  `running = true` means the observation fuel ran out with
the loop still live — the Python `while process_query` loop itself has **no**
iteration ceiling. -/
structure MultiResult where
  rounds : Nat
  running : Bool
  error : Option PyError
  st : MState
  printed : List String
  calls : List (Nat × String × String)
deriving DecidableEq

/-- The `while process_query` loop of `chatbot_mcp_multi.py` (lines 82-98),
unrolled for at most `fuel` iterations (the fuel is an observation bound of
the embedding, not a bound in the code).  Each iteration invokes the model
oracle, processes the response blocks, propagates a raised exception, and
otherwise continues while the flag remains set. -/
def multiLoopAux (model : Nat → List Block) (reg : List (String × Nat))
    (callTool : Nat → String → String → Except String String) :
    Nat → MState → Nat → List String → List (Nat × String × String) → MultiResult
  | 0, st, rounds, pr, cs => ⟨rounds, true, none, st, pr, cs⟩
  | fuel + 1, st, rounds, pr, cs =>
      let r := multiProcessResponse reg callTool (model rounds) st true
      match r.error with
      | some e => ⟨rounds + 1, false, some e, r.st, pr ++ r.printed, cs ++ r.calls⟩
      | none =>
          if r.flag then
            multiLoopAux model reg callTool fuel r.st (rounds + 1)
              (pr ++ r.printed) (cs ++ r.calls)
          else ⟨rounds + 1, false, none, r.st, pr ++ r.printed, cs ++ r.calls⟩

/-- `process_query(query)` of `chatbot_mcp_multi.py`: transcript starts as
`[{'role': 'user', 'content': query}]`, `process_query = True`, then the
unbounded `while` loop (observed up to `fuel` iterations). -/
def multiProcessQuery (model : Nat → List Block) (reg : List (String × Nat))
    (callTool : Nat → String → String → Except String String)
    (query : String) (fuel : Nat) : MultiResult :=
  multiLoopAux model reg callTool fuel ⟨[], [MsgM.user query]⟩ 0 [] []

/-- The tool-use blocks of a response, in order, as `(id, name, input)`. -/
def toolUses : List Block → List (String × String × String)
  | [] => []
  | Block.text _ :: r => toolUses r
  | Block.toolUse id n i :: r => (id, n, i) :: toolUses r

/-! ## Connection setup: `connect_to_server` / `connect_to_servers` -/

/-- An entry of `self.available_tools` (`ToolDefinition` in the source):
name, description and input schema (schema embedded as an opaque string). -/
structure ToolDef where
  name : String
  description : String
  input_schema : String
deriving DecidableEq

/-- The connection-related state of `MCPChatBot.__init__` (lines 28-33):
sessions (as opaque ids in acquisition order), the advertised tool catalog,
and the name → session registry. -/
structure ChatBot where
  sessions : List Nat
  availableTools : List ToolDef
  toolToSession : List (String × Nat)
deriving DecidableEq

/-- `connect_to_server(server_name, server_config)` (lines 35-59).  The
launch/handshake/`list_tools` I/O is an oracle `outcome`: either the server's
advertised tool list or a raised connection error.  On success the new
session is appended and every advertised tool is registered to it (and added
to `available_tools`); on failure the exception is re-raised. -/
def connectToServer (bot : ChatBot) (outcome : Except String (List ToolDef)) :
    Except String ChatBot :=
  match outcome with
  | Except.error e => Except.error e
  | Except.ok tools =>
      let sid := bot.sessions.length
      Except.ok (tools.foldl
        (fun b t =>
          { b with
            toolToSession := register b.toolToSession t.name sid,
            availableTools := b.availableTools ++ [t] })
        { bot with sessions := bot.sessions ++ [sid] })

/-- The `for server_name, server_config in servers.items()` loop of
`connect_to_servers` (lines 61-74), also returning the list of configuration
indices for which a connection was attempted.  `k` is the index of the next
entry; a raised connection error propagates immediately (the surrounding
`try` re-raises), so later entries are never attempted. -/
def connectToServersAux (outcomes : Nat → Except String (List ToolDef)) :
    List String → ChatBot → Nat → Except String ChatBot × List Nat
  | [], bot, _ => (Except.ok bot, [])
  | _ :: rest, bot, k =>
      match connectToServer bot (outcomes k) with
      | Except.error e => (Except.error e, [k])
      | Except.ok bot2 =>
          let r := connectToServersAux outcomes rest bot2 (k + 1)
          (r.1, k :: r.2)

/-- `connect_to_servers()` over a configuration with the given server names,
starting from the freshly constructed bot. -/
def connectToServers (outcomes : Nat → Except String (List ToolDef))
    (names : List String) : Except String ChatBot × List Nat :=
  connectToServersAux outcomes names ⟨[], [], []⟩ 0

/-- Registry obtained from a sequence of registrations
(`tool_to_session` starts as the empty dict). -/
def buildRegistry (regs : List (String × Nat)) : List (String × Nat) :=
  regs.foldl (fun r p => register r p.1 p.2) []

/-- The key list of a registry. -/
def registryKeys (reg : List (String × Nat)) : List String := reg.map Prod.fst

/-- `exOk r = true` iff the oracle outcome `r` is a success (no exception). -/
def exOk {ε α : Type} : Except ε α → Bool
  | Except.ok _ => true
  | Except.error _ => false

/-! ### Concrete scenario used to exhibit the transcript aliasing of the
multi-server variant: a response with two tool-use blocks, both tools
registered and succeeding. -/

/-- Registry with tools `a` (session 0) and `b` (session 1). -/
def c6reg : List (String × Nat) := [("a", 0), ("b", 1)]

/-- Tool oracle: every call succeeds with result `"r"`. -/
def c6ct : Nat → String → String → Except String String := fun _ _ _ => Except.ok "r"

/-- Model response: two tool-use blocks. -/
def c6content : List Block := [Block.toolUse "i1" "a" "x", Block.toolUse "i2" "b" "y"]

/-- Loop-body entry state: `assistant_content = []` freshly allocated at heap
cell 0, transcript `[user "q"]`. -/
def c6init : MStep := ⟨none, ⟨[[]], [MsgM.user "q"]⟩, true, [], []⟩

/-- State after the `for` loop has processed the first tool-use block. -/
def c6afterA : MStep :=
  [Block.toolUse "i1" "a" "x"].foldl (multiBlockStep c6reg c6ct c6content 0) c6init

/-- State after the `for` loop has processed both blocks. -/
def c6afterAB : MStep := c6content.foldl (multiBlockStep c6reg c6ct c6content 0) c6init

/-! ### Concrete instances used by witnesses. -/

/-- Witness registry for C1. -/
def w1reg : List (String × Nat) := [("a", 0), ("b", 1)]

/-- Witness tool-result function for C1. -/
def w1f : Nat → String → String → String := fun _ _ _ => "r"

/-- Witness response for C1: text followed by two tool-use blocks. -/
def w1content : List Block :=
  [Block.text "hi", Block.toolUse "i1" "a" "x", Block.toolUse "i2" "b" "y"]

/-- Witness transcript state for C1. -/
def w1st : MState := ⟨[], [MsgM.user "q"]⟩

/-- Witness session assignment for C1. -/
def w1sess : String → Nat := fun n => if n = "a" then 0 else 1

/-- Witness connection oracle for C8: server 0 connects and advertises one
tool, every later server fails to connect. -/
def w8outcomes : Nat → Except String (List ToolDef) :=
  fun j => if j = 0 then Except.ok [⟨"search", "d", "s"⟩] else Except.error "boom"

/-! ## Theorems -/

/-- C6: within a turn the transcript is claimed to be append-only and never
mutated in place.  The multi-variant code violates this: for a response with
two tool-use blocks, the assistant message appended to the transcript after
the first block aliases the `assistant_content` list; processing the second
block mutates that already-appended message in place (its content grows from
one block to two) and appends the same list object again, so the serialized
transcript holds two identical over-full assistant messages. -/
theorem C6_transcript_mutation :
    c6afterAB = multiProcessResponse c6reg c6ct c6content ⟨[], [MsgM.user "q"]⟩ true ∧
    c6afterA.st.transcript
      = [MsgM.user "q", MsgM.assistantRef 0, MsgM.toolResult "i1" "r"] ∧
    c6afterAB.st.transcript.take 3 = c6afterA.st.transcript ∧
    c6afterAB.st.transcript.get? 1 = c6afterA.st.transcript.get? 1 ∧
    (materialize c6afterA.st).get? 1
      = some (Message.assistant [Block.toolUse "i1" "a" "x"]) ∧
    (materialize c6afterAB.st).get? 1
      = some (Message.assistant [Block.toolUse "i1" "a" "x", Block.toolUse "i2" "b" "y"]) ∧
    materialize c6afterAB.st
      = [Message.user "q",
         Message.assistant [Block.toolUse "i1" "a" "x", Block.toolUse "i2" "b" "y"],
         Message.toolResult "i1" "r",
         Message.assistant [Block.toolUse "i1" "a" "x", Block.toolUse "i2" "b" "y"],
         Message.toolResult "i2" "r"] := by decide

/-- C1 counterexample: in the single-server variant, a turn whose first model
response contains two tool-use blocks dispatches only one tool invocation
(the claim requires two), because `_process_content_blocks` returns right
after the first successful tool call. -/
theorem C1_counterexample :
    (processQuery
      (fun k => if k = 0 then [Block.toolUse "i1" "a" "x", Block.toolUse "i2" "b" "y"]
                else [Block.text "done"])
      (fun _ _ => Except.ok "r") "q").calls = [("a", "x")] := by decide

/-- C2 counterexample: the multi-server variant has no round ceiling.  With a
model that always answers with a tool-use block, its `while process_query`
loop performs 11 model-invocation rounds (more than the configured maximum 10
of the single-server variant) and is still running. -/
theorem C2_counterexample :
    (multiProcessQuery (fun _ => [Block.toolUse "i" "t" "x"]) [("t", 0)]
        (fun _ _ _ => Except.ok "r") "q" 11).rounds = 11 ∧
    (multiProcessQuery (fun _ => [Block.toolUse "i" "t" "x"]) [("t", 0)]
        (fun _ _ _ => Except.ok "r") "q" 11).running = true ∧
    max_iterations < 11 := by decide

/-- Helper: folding the multi-variant block loop over blocks whose tool names
all resolve and whose calls all succeed raises nothing, appends, per tool-use
block in order, the (aliased) assistant message followed by the tool-result
message carrying that block's id, and dispatches exactly the tool-use blocks
in order. -/
theorem multiFold_ok_projections (reg : List (String × Nat))
    (f : Nat → String → String → String) (content : List Block) (c : Nat)
    (sess : String → Nat) :
    ∀ (blocks : List Block) (acc : MStep), acc.error = none →
      (∀ t ∈ toolUses blocks, resolve reg t.2.1 = some (sess t.2.1)) →
      ((blocks.foldl (multiBlockStep reg (fun s n i => Except.ok (f s n i)) content c)
          acc).error = none ∧
       (blocks.foldl (multiBlockStep reg (fun s n i => Except.ok (f s n i)) content c)
          acc).st.transcript
         = acc.st.transcript ++ (toolUses blocks).flatMap
             (fun t => [MsgM.assistantRef c, MsgM.toolResult t.1 (f (sess t.2.1) t.2.1 t.2.2)]) ∧
       (blocks.foldl (multiBlockStep reg (fun s n i => Except.ok (f s n i)) content c)
          acc).calls
         = acc.calls ++ (toolUses blocks).map (fun t => (sess t.2.1, t.2.1, t.2.2))) := by
  intro blocks
  induction blocks with
  | nil => intro acc h _; simp [toolUses, h]
  | cons b rest ih =>
    intro acc h hres
    cases b with
    | text s =>
        have hres' : ∀ t ∈ toolUses rest, resolve reg t.2.1 = some (sess t.2.1) := hres
        have hstep :
            multiBlockStep reg (fun s n i => Except.ok (f s n i)) content c acc (Block.text s)
              = { acc with
                  st := { acc.st with heap := heapAppend acc.st.heap c (Block.text s) },
                  printed := acc.printed ++ [s],
                  flag := if content.length = 1 then false else acc.flag } := by
          simp [multiBlockStep, h]
        obtain ⟨e1, e2, e3⟩ := ih (multiBlockStep reg (fun s n i => Except.ok (f s n i))
          content c acc (Block.text s)) (by rw [hstep]; exact h) hres'
        rw [List.foldl_cons]
        refine ⟨e1, ?_, ?_⟩
        · rw [e2, hstep]; simp [toolUses]
        · rw [e3, hstep]; simp [toolUses]
    | toolUse id n i =>
        have hr : resolve reg n = some (sess n) := hres (id, n, i) (by simp [toolUses])
        have hres' : ∀ t ∈ toolUses rest, resolve reg t.2.1 = some (sess t.2.1) := by
          intro t ht
          exact hres t (by simp [toolUses, ht])
        have hstep :
            multiBlockStep reg (fun s n i => Except.ok (f s n i)) content c acc
                (Block.toolUse id n i)
              = { error := none,
                  st := { heap := heapAppend acc.st.heap c (Block.toolUse id n i),
                          transcript := (acc.st.transcript ++ [MsgM.assistantRef c])
                            ++ [MsgM.toolResult id (f (sess n) n i)] },
                  flag := loneTextFlag content acc.flag,
                  printed := loneTextPrint content acc.printed,
                  calls := acc.calls ++ [(sess n, n, i)] } := by
          simp [multiBlockStep, handleToolCall, h, hr]
        obtain ⟨e1, e2, e3⟩ := ih (multiBlockStep reg (fun s n i => Except.ok (f s n i))
          content c acc (Block.toolUse id n i)) (by rw [hstep]) hres'
        rw [List.foldl_cons]
        refine ⟨e1, ?_, ?_⟩
        · rw [e2, hstep]
          simp [toolUses, List.append_assoc]
        · rw [e3, hstep]
          simp [toolUses, List.append_assoc]

/-- C1 (amended): in the multi-server variant, for every model response
containing N tool-use blocks (N ≥ 1, interleaved with any text blocks), one
round of process_query dispatches exactly N tool invocations, in the order
the blocks appear, and appends exactly N tool-result messages, each carrying
the tool_use id of the block that produced it (each preceded by an assistant
message referencing the shared content list).  The single-server variant
dispatches only the first tool-use block of a response per round. -/
theorem C1_amended (reg : List (String × Nat)) (f : Nat → String → String → String)
    (content : List Block) (st : MState) (sess : String → Nat)
    (hres : ∀ t ∈ toolUses content, resolve reg t.2.1 = some (sess t.2.1)) :
    (multiProcessResponse reg (fun s n i => Except.ok (f s n i)) content st true).error
      = none ∧
    (multiProcessResponse reg (fun s n i => Except.ok (f s n i)) content st true).calls
      = (toolUses content).map (fun t => (sess t.2.1, t.2.1, t.2.2)) ∧
    (multiProcessResponse reg (fun s n i => Except.ok (f s n i)) content st true).st.transcript
      = st.transcript ++ (toolUses content).flatMap
          (fun t => [MsgM.assistantRef st.heap.length,
                     MsgM.toolResult t.1 (f (sess t.2.1) t.2.1 t.2.2)]) := by
  obtain ⟨e1, e2, e3⟩ := multiFold_ok_projections reg f content st.heap.length sess content
    ⟨none, { heap := st.heap ++ [[]], transcript := st.transcript }, true, [], []⟩ rfl hres
  exact ⟨e1, by simpa using e3, by simpa using e2⟩

/-- Witness for C1 (amended): a concrete response with a text block followed
by two tool-use blocks on a two-tool registry. -/
theorem C1_amended_witness :
    (∀ t ∈ toolUses w1content, resolve w1reg t.2.1 = some (w1sess t.2.1)) ∧
    ((multiProcessResponse w1reg (fun s n i => Except.ok (w1f s n i)) w1content w1st
        true).error = none ∧
     (multiProcessResponse w1reg (fun s n i => Except.ok (w1f s n i)) w1content w1st
        true).calls = (toolUses w1content).map (fun t => (w1sess t.2.1, t.2.1, t.2.2)) ∧
     (multiProcessResponse w1reg (fun s n i => Except.ok (w1f s n i)) w1content w1st
        true).st.transcript
       = w1st.transcript ++ (toolUses w1content).flatMap
           (fun t => [MsgM.assistantRef w1st.heap.length,
                      MsgM.toolResult t.1 (w1f (w1sess t.2.1) t.2.1 t.2.2)])) :=
  ⟨by decide, C1_amended w1reg w1f w1content w1st w1sess (by decide)⟩

/-- Helper: the single-server query loop performs at most `fuel` further
model-invocation rounds, and when the maximum-iterations warning fires the
loop consumed all its fuel and no exception escaped. -/
theorem processQueryAux_bound (model : Nat → List Block)
    (callTool : String → String → Except String String) :
    ∀ (fuel : Nat) (ms : List Message) (rounds : Nat) (pr : List String)
      (cs : List (String × String)),
      (processQueryAux model callTool fuel ms rounds pr cs).rounds ≤ rounds + fuel ∧
      ((processQueryAux model callTool fuel ms rounds pr cs).warned = true →
        (processQueryAux model callTool fuel ms rounds pr cs).error = none ∧
        (processQueryAux model callTool fuel ms rounds pr cs).rounds = rounds + fuel) := by
  intro fuel
  induction fuel with
  | zero => intro ms rounds pr cs; simp [processQueryAux]
  | succ n ih =>
      intro ms rounds pr cs
      simp only [processQueryAux]
      cases h : (processResponse callTool (model rounds) ms).error with
      | some e => simp [h]
      | none =>
          simp only [h]
          cases hc : (processResponse callTool (model rounds) ms).shouldContinue with
          | false => simp [hc]
          | true =>
              simp only [hc, if_true]
              obtain ⟨b1, b2⟩ := ih (processResponse callTool (model rounds) ms).messages
                (rounds + 1) (pr ++ (processResponse callTool (model rounds) ms).printed)
                (cs ++ (processResponse callTool (model rounds) ms).calls)
              refine ⟨by omega, fun hw => ?_⟩
              obtain ⟨c1, c2⟩ := b2 hw
              exact ⟨c1, by omega⟩

/-- C2 (amended): the single-server variant's `process_query` performs at
most `max_iterations = 10` model-invocation rounds per user query, and
reaching the maximum ends the turn with a warning rather than raising (the
warning fires only with no escaped exception, after exactly 10 rounds).  The
multi-server variant's loop has no round ceiling at all. -/
theorem C2_amended (model : Nat → List Block)
    (callTool : String → String → Except String String) (q : String) :
    (processQuery model callTool q).rounds ≤ max_iterations ∧
    ((processQuery model callTool q).warned = true →
      (processQuery model callTool q).error = none ∧
      (processQuery model callTool q).rounds = max_iterations) := by
  have h := processQueryAux_bound model callTool max_iterations [Message.user q] 0 [] []
  simpa [processQuery] using h

/-- Witness for C2 (amended): a model that always requests a tool makes the
single-server loop hit the ceiling; the warning fires, 10 rounds were
performed and no exception escaped. -/
theorem C2_amended_witness :
    (processQuery (fun _ => [Block.toolUse "i" "t" "x"]) (fun _ _ => Except.ok "r")
        "q").warned = true ∧
    (processQuery (fun _ => [Block.toolUse "i" "t" "x"]) (fun _ _ => Except.ok "r")
        "q").rounds ≤ max_iterations ∧
    (processQuery (fun _ => [Block.toolUse "i" "t" "x"]) (fun _ _ => Except.ok "r")
        "q").error = none ∧
    (processQuery (fun _ => [Block.toolUse "i" "t" "x"]) (fun _ _ => Except.ok "r")
        "q").rounds = max_iterations :=
  ⟨by decide,
   (C2_amended (fun _ => [Block.toolUse "i" "t" "x"]) (fun _ _ => Except.ok "r") "q").1,
   ((C2_amended (fun _ => [Block.toolUse "i" "t" "x"]) (fun _ _ => Except.ok "r") "q").2
      (by decide)).1,
   ((C2_amended (fun _ => [Block.toolUse "i" "t" "x"]) (fun _ _ => Except.ok "r") "q").2
      (by decide)).2⟩

/-- C3: in both variants, a model response whose content is exactly one block
and that block is text makes the round emit the text, dispatch no tool, and
terminate the turn (the single-server processing returns `False`; the
multi-variant flag is cleared; at loop level the turn completes after that
single round with the transcript unchanged beyond the initial user message
and no warning or exception). -/
theorem C3_lone_text (callTool : String → String → Except String String)
    (reg : List (String × Nat)) (mct : Nat → String → String → Except String String)
    (t q : String) (ms : List Message) (st : MState) (fuel : Nat) :
    processResponse callTool [Block.text t] ms = ⟨false, none, ms, [t], []⟩ ∧
    (multiProcessResponse reg mct [Block.text t] st true).error = none ∧
    (multiProcessResponse reg mct [Block.text t] st true).flag = false ∧
    (multiProcessResponse reg mct [Block.text t] st true).st.transcript = st.transcript ∧
    (multiProcessResponse reg mct [Block.text t] st true).printed = [t] ∧
    (multiProcessResponse reg mct [Block.text t] st true).calls = [] ∧
    processQuery (fun _ => [Block.text t]) callTool q
      = ⟨1, false, none, [Message.user q], [t], []⟩ ∧
    (multiProcessQuery (fun _ => [Block.text t]) reg mct q (fuel + 1)).rounds = 1 ∧
    (multiProcessQuery (fun _ => [Block.text t]) reg mct q (fuel + 1)).running = false ∧
    (multiProcessQuery (fun _ => [Block.text t]) reg mct q (fuel + 1)).error = none ∧
    (multiProcessQuery (fun _ => [Block.text t]) reg mct q (fuel + 1)).st.transcript
      = [MsgM.user q] ∧
    (multiProcessQuery (fun _ => [Block.text t]) reg mct q (fuel + 1)).printed = [t] ∧
    (multiProcessQuery (fun _ => [Block.text t]) reg mct q (fuel + 1)).calls = [] :=
  ⟨rfl, rfl, rfl, rfl, rfl, rfl, rfl, rfl, rfl, rfl, rfl, rfl, rfl⟩

/-- Helper: a name carried by no registry entry does not resolve. -/
theorem resolve_eq_none_of_not_mem (reg : List (String × Nat)) (name : String)
    (h : ∀ p ∈ reg, p.1 ≠ name) : resolve reg name = none := by
  have hfind : reg.find? (fun p => p.1 = name) = none :=
    List.find?_eq_none.mpr (fun x hx => by simpa using h x hx)
  simp [resolve, hfind]

/-- C4: for every registry state and every tool name not present in the
registry, dispatching a tool-use block with that name fails on the
`tool_to_session[tool_name]` lookup (KeyError, the spec's UnknownToolError):
nothing is dispatched, the exception aborts the block loop and the whole
turn ends with that error after the round. -/
theorem C4_unknown_tool (reg : List (String × Nat)) (name : String)
    (h : ∀ p ∈ reg, p.1 ≠ name)
    (callTool : Nat → String → String → Except String String)
    (id input q : String) (st : MState) (fuel : Nat) :
    handleToolCall reg callTool id name input st
      = (some (PyError.keyError name), st, []) ∧
    (multiProcessResponse reg callTool [Block.toolUse id name input] st true).error
      = some (PyError.keyError name) ∧
    (multiProcessResponse reg callTool [Block.toolUse id name input] st true).calls = [] ∧
    (multiProcessQuery (fun _ => [Block.toolUse id name input]) reg callTool q
        (fuel + 1)).error = some (PyError.keyError name) ∧
    (multiProcessQuery (fun _ => [Block.toolUse id name input]) reg callTool q
        (fuel + 1)).rounds = 1 := by
  have hres := resolve_eq_none_of_not_mem reg name h
  refine ⟨by simp [handleToolCall, hres], ?_, ?_, ?_, ?_⟩ <;>
    simp [multiProcessQuery, multiLoopAux, multiProcessResponse, multiBlockStep,
      handleToolCall, hres]

/-- Witness for C4: looking up the unregistered name `foo` on a registry
holding only `calc`. -/
theorem C4_unknown_tool_witness :
    (∀ p ∈ [(("calc" : String), (0 : Nat))], p.1 ≠ "foo") ∧
    handleToolCall [("calc", 0)] (fun _ _ _ => Except.ok "r") "i" "foo" "x"
        ⟨[], [MsgM.user "q"]⟩
      = (some (PyError.keyError "foo"), ⟨[], [MsgM.user "q"]⟩, []) ∧
    (multiProcessQuery (fun _ => [Block.toolUse "i" "foo" "x"]) [("calc", 0)]
        (fun _ _ _ => Except.ok "r") "q" 1).error = some (PyError.keyError "foo") :=
  ⟨by decide,
   (C4_unknown_tool [("calc", 0)] "foo" (by decide) (fun _ _ _ => Except.ok "r")
      "i" "x" "q" ⟨[], [MsgM.user "q"]⟩ 0).1,
   (C4_unknown_tool [("calc", 0)] "foo" (by decide) (fun _ _ _ => Except.ok "r")
      "i" "x" "q" ⟨[], [MsgM.user "q"]⟩ 0).2.2.2.1⟩

/-- Helper: when processing of the current round's response raises, the
single-server query loop stops with that error and the transcript the block
processing left behind. -/
theorem processQueryAux_error_of_first (model : Nat → List Block)
    (callTool : String → String → Except String String)
    (fuel : Nat) (ms : List Message) (rounds : Nat) (pr : List String)
    (cs : List (String × String)) (e : String)
    (h : (processResponse callTool (model rounds) ms).error = some e) :
    (processQueryAux model callTool (fuel + 1) ms rounds pr cs).error = some e ∧
    (processQueryAux model callTool (fuel + 1) ms rounds pr cs).messages
      = (processResponse callTool (model rounds) ms).messages := by
  simp [processQueryAux, h]

/-- C5: a failing tool call is turn-fatal in both variants and is never
converted into a tool-result transcript entry.  Single-server: the exception
propagates out of `_process_content_blocks` with the transcript unchanged
(the paired assistant/tool-result append only happens after success), and
`process_query` surfaces the error with the transcript still just the user
message.  Multi-server: `_handle_tool_call` re-raises without appending a
tool-result (only the assistant message, appended before the call, remains)
and the loop surfaces the error. -/
theorem C5_tool_failure (e id name input q : String) (rest : List Block)
    (totalLen : Nat) (ms : List Message) (pr : List String)
    (cs : List (String × String))
    (ct1 : String → String → Except String String)
    (h1 : ct1 name input = Except.error e)
    (reg : List (String × Nat)) (s : Nat) (hre : resolve reg name = some s)
    (ct2 : Nat → String → String → Except String String)
    (h2 : ct2 s name input = Except.error e) (st : MState) (fuel : Nat) :
    processContentBlocks ct1 (Block.toolUse id name input :: rest) totalLen ms pr cs
      = ⟨false, some e, ms, pr, cs ++ [(name, input)]⟩ ∧
    (processQuery (fun _ => Block.toolUse id name input :: rest) ct1 q).error = some e ∧
    (processQuery (fun _ => Block.toolUse id name input :: rest) ct1 q).messages
      = [Message.user q] ∧
    handleToolCall reg ct2 id name input st
      = (some (PyError.toolError e), st, [(s, name, input)]) ∧
    (multiProcessResponse reg ct2 [Block.toolUse id name input] st true).error
      = some (PyError.toolError e) ∧
    (multiProcessResponse reg ct2 [Block.toolUse id name input] st true).st.transcript
      = st.transcript ++ [MsgM.assistantRef st.heap.length] ∧
    (multiProcessQuery (fun _ => [Block.toolUse id name input]) reg ct2 q
        (fuel + 1)).error = some (PyError.toolError e) := by
  have hblock : ∀ (tl : Nat) (ms0 : List Message) (pr0 : List String)
      (cs0 : List (String × String)),
      processContentBlocks ct1 (Block.toolUse id name input :: rest) tl ms0 pr0 cs0
        = ⟨false, some e, ms0, pr0, cs0 ++ [(name, input)]⟩ := by
    intro tl ms0 pr0 cs0
    simp [processContentBlocks, h1]
  have hresp : processResponse ct1 (Block.toolUse id name input :: rest) [Message.user q]
      = ⟨false, some e, [Message.user q], [], [(name, input)]⟩ := by
    simpa [processResponse] using
      hblock (Block.toolUse id name input :: rest).length [Message.user q] [] []
  have herr :
      (processResponse ct1 ((fun (_ : Nat) => Block.toolUse id name input :: rest) 0)
        [Message.user q]).error = some e := by rw [hresp]
  have hq := processQueryAux_error_of_first (fun _ => Block.toolUse id name input :: rest)
    ct1 9 [Message.user q] 0 [] [] e herr
  refine ⟨hblock totalLen ms pr cs, hq.1, ?_, ?_, ?_, ?_, ?_⟩
  · show (processQueryAux (fun _ => Block.toolUse id name input :: rest) ct1 (9 + 1)
        [Message.user q] 0 [] []).messages = [Message.user q]
    rw [hq.2, hresp]
  · simp [handleToolCall, hre, h2]
  · simp [multiProcessResponse, multiBlockStep, handleToolCall, hre, h2]
  · simp [multiProcessResponse, multiBlockStep, handleToolCall, hre, h2]
  · simp [multiProcessQuery, multiLoopAux, multiProcessResponse, multiBlockStep,
      handleToolCall, hre, h2]

/-- Witness for C5: a registered tool whose execution raises `boom`. -/
theorem C5_tool_failure_witness :
    (fun (_ : String) (_ : String) => (Except.error "boom" : Except String String))
        "srch" "x" = Except.error "boom" ∧
    resolve [("srch", 0)] "srch" = some 0 ∧
    (fun (_ : Nat) (_ : String) (_ : String) =>
        (Except.error "boom" : Except String String)) 0 "srch" "x"
      = Except.error "boom" ∧
    (processQuery (fun _ => Block.toolUse "i" "srch" "x" :: []) (fun _ _ => Except.error "boom")
        "q").error = some "boom" ∧
    (multiProcessResponse [("srch", 0)] (fun _ _ _ => Except.error "boom")
        [Block.toolUse "i" "srch" "x"] ⟨[], [MsgM.user "q"]⟩ true).st.transcript
      = [MsgM.user "q"] ++ [MsgM.assistantRef 0] :=
  ⟨rfl, by decide, rfl,
   (C5_tool_failure "boom" "i" "srch" "x" "q" [] 0 [] [] []
      (fun _ _ => Except.error "boom") rfl [("srch", 0)] 0 (by decide)
      (fun _ _ _ => Except.error "boom") rfl ⟨[], [MsgM.user "q"]⟩ 0).2.1,
   (C5_tool_failure "boom" "i" "srch" "x" "q" [] 0 [] [] []
      (fun _ _ => Except.error "boom") rfl [("srch", 0)] 0 (by decide)
      (fun _ _ _ => Except.error "boom") rfl ⟨[], [MsgM.user "q"]⟩ 0).2.2.2.2.2.1⟩

/-- Helper: overwriting the entries for key `n` leaves lookups of other keys
untouched. -/
theorem find?_map_overwrite_ne (reg : List (String × Nat)) (n : String) (s : Nat)
    (m : String) (h : m ≠ n) :
    List.find? (fun p => p.1 = m) (reg.map (fun p => if p.1 = n then (n, s) else p))
      = List.find? (fun p => p.1 = m) reg := by
  induction reg with
  | nil => rfl
  | cons p rest ih =>
    by_cases hp : p.1 = n
    · simp only [List.map_cons, if_pos hp, List.find?_cons]
      rw [show (decide ((n, s).1 = m)) = false by simp [Ne.symm h],
          show (decide (p.1 = m)) = false by simp [hp, Ne.symm h]]
      exact ih
    · simp only [List.map_cons, if_neg hp, List.find?_cons]
      cases hd : decide (p.1 = m)
      · exact ih
      · rfl

/-- Helper: when key `n` occurs, overwriting its entries makes its lookup
return the new value. -/
theorem find?_map_overwrite_eq (reg : List (String × Nat)) (n : String) (s : Nat)
    (h : reg.any (fun p => p.1 = n) = true) :
    List.find? (fun p => p.1 = n) (reg.map (fun p => if p.1 = n then (n, s) else p))
      = some (n, s) := by
  induction reg with
  | nil => simp at h
  | cons p rest ih =>
    by_cases hp : p.1 = n
    · simp only [List.map_cons, if_pos hp, List.find?_cons]
      simp
    · have h2 : rest.any (fun p => p.1 = n) = true := by
        rcases List.any_eq_true.mp h with ⟨x, hx, hxn⟩
        rcases List.mem_cons.mp hx with rfl | hx2
        · exact absurd (by simpa using hxn) hp
        · exact List.any_eq_true.mpr ⟨x, hx2, hxn⟩
      simp only [List.map_cons, if_neg hp, List.find?_cons]
      rw [show (decide (p.1 = n)) = false by simp [hp]]
      exact ih h2

/-- Helper: Python dict-assignment semantics of `register` at the level of
lookups: the assigned key now resolves to the new session, all other keys
are unaffected. -/
theorem resolve_register (reg : List (String × Nat)) (n : String) (s : Nat) (m : String) :
    resolve (register reg n s) m = if m = n then some s else resolve reg m := by
  unfold register resolve
  by_cases hany : reg.any (fun p => p.1 = n) = true
  · rw [if_pos hany]
    by_cases hm : m = n
    · subst hm
      rw [if_pos rfl, find?_map_overwrite_eq reg m s hany]
      rfl
    · rw [if_neg hm, find?_map_overwrite_ne reg n s m hm]
  · rw [if_neg hany]
    have hany2 : reg.any (fun p => p.1 = n) = false := by
      cases hh : reg.any (fun p => p.1 = n)
      · rfl
      · exact absurd hh hany
    have hnone : List.find? (fun p => p.1 = n) reg = none :=
      List.find?_eq_none.mpr (by
        intro x hx
        have hne := List.any_eq_false.mp hany2 x hx
        simpa using hne)
    by_cases hm : m = n
    · subst hm
      rw [if_pos rfl, List.find?_append, hnone]
      simp [List.find?_cons]
    · rw [if_neg hm, List.find?_append]
      have h2 : List.find? (fun p => p.1 = m) [(n, s)] = none := by
        simp only [List.find?_cons]
        rw [show (decide ((n, s).1 = m)) = false by simp [Ne.symm hm]]
        rfl
      rw [h2]
      cases List.find? (fun p => p.1 = m) reg <;> rfl

/-- Helper: `register` keeps the registry's key list duplicate-free. -/
theorem registryKeys_register_nodup (reg : List (String × Nat)) (n : String) (s : Nat)
    (h : (registryKeys reg).Nodup) : (registryKeys (register reg n s)).Nodup := by
  unfold register registryKeys
  by_cases hany : reg.any (fun p => p.1 = n) = true
  · rw [if_pos hany]
    have heq : (reg.map (fun p => if p.1 = n then (n, s) else p)).map Prod.fst
        = reg.map Prod.fst := by
      rw [List.map_map]
      apply List.map_congr_left
      intro p _
      by_cases hp : p.1 = n <;> simp [hp, Function.comp_def]
    rw [heq]
    exact h
  · rw [if_neg hany]
    have hany2 : reg.any (fun p => p.1 = n) = false := by
      cases hh : reg.any (fun p => p.1 = n)
      · rfl
      · exact absurd hh hany
    have hnotmem : n ∉ reg.map Prod.fst := by
      intro hmem
      rcases List.mem_map.mp hmem with ⟨p, hp, hpn⟩
      have hne := List.any_eq_false.mp hany2 p hp
      rw [hpn] at hne
      simp at hne
    rw [List.map_append, List.nodup_append]
    refine ⟨h, by simp, ?_⟩
    intro a ha hb
    simp at hb
    subst hb
    exact hnotmem ha

/-- Helper: the registry built from any registration sequence has
duplicate-free keys, so each present name maps to exactly one session. -/
theorem buildRegistry_keys_nodup (regs : List (String × Nat)) :
    (registryKeys (buildRegistry regs)).Nodup := by
  suffices hgen : ∀ (init : List (String × Nat)), (registryKeys init).Nodup →
      (registryKeys (regs.foldl (fun r p => register r p.1 p.2) init)).Nodup by
    exact hgen [] (by simp [registryKeys])
  induction regs with
  | nil => intro init h; exact h
  | cons p rest ih =>
      intro init h
      exact ih (register init p.1 p.2) (registryKeys_register_nodup init p.1 p.2 h)

/-- Helper: registering one more pair is a `register` on the built registry
(registration order is fold order, i.e. server connection order). -/
theorem buildRegistry_append_single (regs : List (String × Nat)) (n : String) (s : Nat) :
    buildRegistry (regs ++ [(n, s)]) = register (buildRegistry regs) n s := by
  unfold buildRegistry
  rw [List.foldl_append]
  rfl

/-- C7: after any sequence of tool registrations (performed in server
connection order), every name present in the registry maps to exactly one
connection (the key list is duplicate-free), and re-registering a name makes
the last registration win while leaving every other name's mapping
unchanged. -/
theorem C7_registry (regs : List (String × Nat)) (n m : String) (s : Nat) :
    (registryKeys (buildRegistry regs)).Nodup ∧
    resolve (buildRegistry (regs ++ [(n, s)])) n = some s ∧
    (m ≠ n → resolve (buildRegistry (regs ++ [(n, s)])) m
      = resolve (buildRegistry regs) m) := by
  refine ⟨buildRegistry_keys_nodup regs, ?_, ?_⟩
  · rw [buildRegistry_append_single, resolve_register, if_pos rfl]
  · intro h
    rw [buildRegistry_append_single, resolve_register, if_neg h]

/-- Witness for C7: registering `a` twice on top of a one-entry registry;
the second registration wins and the unrelated name `b` is unaffected. -/
theorem C7_registry_witness :
    ("b" : String) ≠ "a" ∧
    (registryKeys (buildRegistry [("a", 0)])).Nodup ∧
    resolve (buildRegistry ([("a", 0)] ++ [("a", 1)])) "a" = some 1 ∧
    resolve (buildRegistry ([("a", 0)] ++ [("a", 1)])) "b"
      = resolve (buildRegistry [("a", 0)]) "b" :=
  ⟨by decide,
   (C7_registry [("a", 0)] "a" "b" 1).1,
   (C7_registry [("a", 0)] "a" "b" 1).2.1,
   (C7_registry [("a", 0)] "a" "b" 1).2.2 (by decide)⟩

/-- Helper: if connections `k0, …, k0+k-1` succeed and connection `k0+k`
fails, the connection loop attempts exactly entries `k0, …, k0+k` and
propagates the error. -/
theorem connectAux_fail (outcomes : Nat → Except String (List ToolDef)) (e : String) :
    ∀ (names : List String) (bot : ChatBot) (k0 k : Nat),
      k < names.length →
      (∀ j, j < k → exOk (outcomes (k0 + j)) = true) →
      outcomes (k0 + k) = Except.error e →
      connectToServersAux outcomes names bot k0
        = (Except.error e, List.range' k0 (k + 1)) := by
  intro names
  induction names with
  | nil =>
      intro bot k0 k hk
      simp at hk
  | cons nm rest ih =>
      intro bot k0 k hk hok he
      cases k with
      | zero =>
          have he0 : outcomes k0 = Except.error e := by simpa using he
          simp [connectToServersAux, connectToServer, he0, List.range']
      | succ k2 =>
          have h0 : exOk (outcomes k0) = true := by
            simpa using hok 0 (Nat.succ_pos k2)
          cases hc : outcomes k0 with
          | error e2 => rw [hc] at h0; simp [exOk] at h0
          | ok tools =>
              have hok2 : ∀ j, j < k2 → exOk (outcomes (k0 + 1 + j)) = true := by
                intro j hj
                have := hok (j + 1) (by omega)
                have harg : k0 + (j + 1) = k0 + 1 + j := by omega
                rwa [harg] at this
              have he2 : outcomes (k0 + 1 + k2) = Except.error e := by
                have harg : k0 + (k2 + 1) = k0 + 1 + k2 := by omega
                rwa [harg] at he
              simp only [connectToServersAux, hc, connectToServer]
              rw [ih _ (k0 + 1) k2 (by simpa using hk) hok2 he2]
              simp [List.range']

/-- C8: `connect_to_servers` iterates the configuration entries calling
`connect_to_server` on each; if every connection before the k-th succeeds and
the k-th raises, the error propagates to the caller and exactly entries
0, …, k are attempted — no connection is attempted after the failing one
(fail-fast). -/
theorem C8_fail_fast (outcomes : Nat → Except String (List ToolDef))
    (names : List String) (k : Nat) (e : String)
    (hk : k < names.length)
    (hok : ∀ j, j < k → exOk (outcomes j) = true)
    (he : outcomes k = Except.error e) :
    (connectToServers outcomes names).1 = Except.error e ∧
    (connectToServers outcomes names).2 = List.range (k + 1) := by
  have h := connectAux_fail outcomes e names ⟨[], [], []⟩ 0 k hk
    (by intro j hj; simpa using hok j hj) (by simpa using he)
  rw [List.range_eq_range']
  unfold connectToServers
  rw [h]
  exact ⟨rfl, rfl⟩

/-- Witness for C8: three configured servers; server 0 connects, server 1
fails with `boom`, server 2 is never attempted. -/
theorem C8_fail_fast_witness :
    1 < (["s1", "s2", "s3"] : List String).length ∧
    (∀ j, j < 1 → exOk (w8outcomes j) = true) ∧
    w8outcomes 1 = Except.error "boom" ∧
    (connectToServers w8outcomes ["s1", "s2", "s3"]).1 = Except.error "boom" ∧
    (connectToServers w8outcomes ["s1", "s2", "s3"]).2 = List.range 2 :=
  ⟨by decide, by decide, rfl,
   (C8_fail_fast w8outcomes ["s1", "s2", "s3"] 1 "boom" (by decide) (by decide)
      rfl).1,
   (C8_fail_fast w8outcomes ["s1", "s2", "s3"] 1 "boom" (by decide) (by decide)
      rfl).2⟩

/-- Helper: appending into heap cell `c` leaves every other cell unchanged. -/
theorem heapAppend_getD_ne (heap : List (List Block)) (c i : Nat) (b : Block)
    (h : i ≠ c) : (heapAppend heap c b).getD i [] = heap.getD i [] := by
  unfold heapAppend
  simp [List.getD_eq_getElem?_getD, List.getElem?_set_ne (Ne.symm h)]

/-- Helper: folding the multi-variant block loop over text-only blocks of a
response with more than one block touches only the `assistant_content` heap
cell: no error, no transcript entry, no cleared flag, no dispatched call. -/
theorem multiFold_all_text (reg : List (String × Nat))
    (ct : Nat → String → String → Except String String)
    (content : List Block) (c : Nat) (hlen : content.length ≠ 1) :
    ∀ (blocks : List Block) (acc : MStep),
      (∀ b ∈ blocks, b.isText = true) →
      ((blocks.foldl (multiBlockStep reg ct content c) acc).error = acc.error ∧
       (blocks.foldl (multiBlockStep reg ct content c) acc).st.transcript
         = acc.st.transcript ∧
       (blocks.foldl (multiBlockStep reg ct content c) acc).flag = acc.flag ∧
       (blocks.foldl (multiBlockStep reg ct content c) acc).calls = acc.calls ∧
       ∀ i, i ≠ c →
         (blocks.foldl (multiBlockStep reg ct content c) acc).st.heap.getD i []
           = acc.st.heap.getD i []) := by
  intro blocks
  induction blocks with
  | nil => intro acc _; exact ⟨rfl, rfl, rfl, rfl, fun i _ => rfl⟩
  | cons b rest ih =>
    intro acc hall
    cases b with
    | toolUse id n i =>
        exact absurd (hall _ (List.mem_cons_self _ _)) (by simp [Block.isText])
    | text s =>
        have hrest : ∀ b ∈ rest, b.isText = true :=
          fun b hb => hall b (List.mem_cons_of_mem _ hb)
        rw [List.foldl_cons]
        cases herr : acc.error with
        | some e =>
            have hstep : multiBlockStep reg ct content c acc (Block.text s) = acc := by
              simp [multiBlockStep, herr]
            rw [hstep]
            obtain ⟨f1, f2, f3, f4, f5⟩ := ih acc hrest
            exact ⟨f1.trans herr, f2, f3, f4, f5⟩
        | none =>
            have hstep : multiBlockStep reg ct content c acc (Block.text s)
                = { acc with
                    st := { acc.st with heap := heapAppend acc.st.heap c (Block.text s) },
                    printed := acc.printed ++ [s],
                    flag := acc.flag } := by
              simp [multiBlockStep, herr, hlen]
            obtain ⟨e1, e2, e3, e4, e5⟩ :=
              ih (multiBlockStep reg ct content c acc (Block.text s)) hrest
            rw [hstep] at e1 e2 e3 e4 e5
            rw [hstep]
            refine ⟨e1.trans herr, e2, e3, e4, ?_⟩
            intro i hi
            exact (e5 i hi).trans (heapAppend_getD_ne acc.st.heap c i (Block.text s) hi)

/-- C9: in the multi-server variant, a model response of two or more blocks
that are all text makes one loop iteration append nothing to the transcript
(even after dereferencing the heap), dispatch nothing, raise nothing and
leave the continue-flag set, so the model is re-invoked with an unchanged
transcript. -/
theorem C9_all_text (reg : List (String × Nat))
    (ct : Nat → String → String → Except String String)
    (content : List Block) (st : MState)
    (hall : ∀ b ∈ content, b.isText = true) (hlen : 2 ≤ content.length)
    (hwf : ∀ cell, MsgM.assistantRef cell ∈ st.transcript → cell < st.heap.length) :
    (multiProcessResponse reg ct content st true).error = none ∧
    (multiProcessResponse reg ct content st true).flag = true ∧
    (multiProcessResponse reg ct content st true).calls = [] ∧
    (multiProcessResponse reg ct content st true).st.transcript = st.transcript ∧
    materialize (multiProcessResponse reg ct content st true).st = materialize st := by
  have hlen1 : content.length ≠ 1 := by omega
  obtain ⟨e1, e2, e3, e4, e5⟩ := multiFold_all_text reg ct content st.heap.length hlen1
    content ⟨none, { heap := st.heap ++ [[]], transcript := st.transcript }, true, [], []⟩
    hall
  refine ⟨e1, e3, e4, e2, ?_⟩
  unfold materialize
  rw [show (multiProcessResponse reg ct content st true).st.transcript = st.transcript
    from e2]
  apply List.map_congr_left
  intro m hm
  cases m with
  | user c => rfl
  | toolResult i c => rfl
  | assistantRef cell =>
      have hlt := hwf cell hm
      have hne : cell ≠ st.heap.length := by omega
      have h1 := e5 cell hne
      have h2 : (st.heap ++ [[]]).getD cell [] = st.heap.getD cell [] :=
        List.getD_append _ _ _ _ hlt
      exact congrArg Message.assistant (h1.trans h2)

/-- Witness for C9: a two-text-block response on a fresh turn state. -/
theorem C9_all_text_witness :
    (∀ b ∈ [Block.text "a", Block.text "b"], b.isText = true) ∧
    2 ≤ ([Block.text "a", Block.text "b"] : List Block).length ∧
    (∀ cell, MsgM.assistantRef cell ∈ (⟨[], [MsgM.user "q"]⟩ : MState).transcript →
      cell < (⟨[], [MsgM.user "q"]⟩ : MState).heap.length) ∧
    ((multiProcessResponse [] (fun _ _ _ => Except.ok "r")
        [Block.text "a", Block.text "b"] ⟨[], [MsgM.user "q"]⟩ true).error = none ∧
     (multiProcessResponse [] (fun _ _ _ => Except.ok "r")
        [Block.text "a", Block.text "b"] ⟨[], [MsgM.user "q"]⟩ true).flag = true ∧
     (multiProcessResponse [] (fun _ _ _ => Except.ok "r")
        [Block.text "a", Block.text "b"] ⟨[], [MsgM.user "q"]⟩ true).calls = [] ∧
     (multiProcessResponse [] (fun _ _ _ => Except.ok "r")
        [Block.text "a", Block.text "b"] ⟨[], [MsgM.user "q"]⟩ true).st.transcript
       = (⟨[], [MsgM.user "q"]⟩ : MState).transcript ∧
     materialize (multiProcessResponse [] (fun _ _ _ => Except.ok "r")
        [Block.text "a", Block.text "b"] ⟨[], [MsgM.user "q"]⟩ true).st
       = materialize ⟨[], [MsgM.user "q"]⟩) :=
  ⟨by decide, by decide, by intro cell hc; simp at hc,
   C9_all_text [] (fun _ _ _ => Except.ok "r") [Block.text "a", Block.text "b"]
     ⟨[], [MsgM.user "q"]⟩ (by decide) (by decide) (by intro cell hc; simp at hc)⟩

/-- Helper: the single-server block processing performs at most one more tool
invocation than already accumulated. -/
theorem processContentBlocks_calls_aux (ct : String → String → Except String String) :
    ∀ (content : List Block) (tl : Nat) (ms : List Message) (pr : List String)
      (cs : List (String × String)),
      (processContentBlocks ct content tl ms pr cs).calls.length ≤ cs.length + 1 := by
  intro content
  induction content with
  | nil => intro tl ms pr cs; simp [processContentBlocks]
  | cons b rest ih =>
      intro tl ms pr cs
      cases b with
      | text s =>
          simp only [processContentBlocks]
          split
          · simp
          · exact ih tl ms (pr ++ [s]) cs
      | toolUse id n i =>
          simp only [processContentBlocks]
          cases ct n i <;> simp

/-- Helper: the single-server block processing never looks past the first
tool-use block: any suffix after it is irrelevant to the result. -/
theorem processContentBlocks_stops_at_tool
    (ct : String → String → Except String String) (id n i : String) :
    ∀ (pre suf : List Block) (tl : Nat) (ms : List Message) (pr : List String)
      (cs : List (String × String)),
      processContentBlocks ct (pre ++ Block.toolUse id n i :: suf) tl ms pr cs
        = processContentBlocks ct (pre ++ [Block.toolUse id n i]) tl ms pr cs := by
  intro pre
  induction pre with
  | nil =>
      intro suf tl ms pr cs
      simp only [List.nil_append, processContentBlocks]
  | cons b pre2 ih =>
      intro suf tl ms pr cs
      cases b with
      | text s =>
          simp only [List.cons_append, processContentBlocks]
          split
          · rfl
          · exact ih suf tl ms (pr ++ [s]) cs
      | toolUse id2 n2 i2 =>
          simp only [List.cons_append, processContentBlocks]

/-- C10: in the single-server variant, processing of a model response returns
right after the first successful tool call: at most one tool invocation is
performed per round, and the result (display output, transcript, dispatched
calls, return value) of processing a response with a tool-use block is
unchanged if everything after that tool-use block is dropped — later blocks
are neither displayed nor appended. -/
theorem C10_first_tool_only (ct : String → String → Except String String)
    (content pre suf : List Block) (id n i : String) (ms : List Message) :
    (processResponse ct content ms).calls.length ≤ 1 ∧
    processResponse ct (pre ++ Block.toolUse id n i :: suf) ms
      = processContentBlocks ct (pre ++ [Block.toolUse id n i])
          (pre ++ Block.toolUse id n i :: suf).length ms [] [] := by
  constructor
  · simpa using processContentBlocks_calls_aux ct content content.length ms [] []
  · unfold processResponse
    exact processContentBlocks_stops_at_tool ct id n i pre suf
      (pre ++ Block.toolUse id n i :: suf).length ms [] []
